import Mathlib

/-!
Verification development for the AmpedFieldOps OCR service
(`src/ocr-service`).  The Python modules are shallowly embedded:

* `PyStr`              — ASCII-level models of the Python string operations
                         the service relies on (`lower`, `strip`, `split`,
                         `isupper`, substring tests) and of the concrete
                         regular expressions appearing in the source;
* `OCR.DocumentClassifier` — `services/document_classifier.py`;
* `OCR.DocumentParser`     — `services/document_parser.py`;
* `OCR.ImageUtils`         — `utils/image_utils.py` (`resize_image`);
* `OCR.OCREngine`          — `services/ocr_engine.py` (confidence
                         aggregation of `extract_with_confidence`);
* `OCR.App`                — the `/process` pipeline of `app.py`.

Monetary values and confidences are modelled as rationals (the Python
source uses IEEE floats; every concrete value exercised here is an exact
short decimal, where the two agree).  Each regular expression used by the
source is embedded as a deterministic scanner; the patterns involved have
character classes disjoint from the continuation, so the greedy scanner
computes exactly the Python `re` leftmost match / `findall` semantics.
-/

namespace PyStr

/-- ASCII lower-casing of one character, as Python `str.lower` acts on the
ASCII range. -/
def lowerChar (c : Char) : Char :=
  if 65 ≤ c.toNat ∧ c.toNat ≤ 90 then Char.ofNat (c.toNat + 32) else c

/-- Python `str.lower` (ASCII fragment). -/
def lower (s : List Char) : List Char := s.map lowerChar

/-- Python's `\s` class / `str.strip` default set: space, tab, newline,
carriage return, form feed, vertical tab. -/
def isSpace (c : Char) : Bool :=
  c == ' ' || c == '\t' || c == '\n' || c == '\x0d' || c == '\x0c' || c == '\x0b'

/-- `startsWith p s` holds when `p` is a prefix of `s`. -/
def startsWith : List Char → List Char → Bool
  | [], _ => true
  | _ :: _, [] => false
  | p :: ps, c :: cs => p == c && startsWith ps cs

/-- Python `p in s` substring test. -/
def containsSub (p : List Char) : List Char → Bool
  | [] => startsWith p []
  | c :: cs => startsWith p (c :: cs) || containsSub p cs

/-- Number of positions of `s` at which `p` occurs (occurrence count of a
substring, as the specification's scoring description reads). -/
def countOcc (p : List Char) : List Char → Nat
  | [] => if startsWith p [] then 1 else 0
  | c :: cs => (if startsWith p (c :: cs) then 1 else 0) + countOcc p cs

/-- Python `str.strip()`. -/
def pyStrip (s : List Char) : List Char :=
  ((s.dropWhile isSpace).reverse.dropWhile isSpace).reverse

/-- ASCII cased character (a letter). -/
def isCased (c : Char) : Bool :=
  (97 ≤ c.toNat && c.toNat ≤ 122) || (65 ≤ c.toNat && c.toNat ≤ 90)

/-- ASCII upper-case letter. -/
def isUpperAscii (c : Char) : Bool := 65 ≤ c.toNat && c.toNat ≤ 90

/-- Python `str.isupper`: at least one cased character and no lower-case
cased character. -/
def pyIsUpper (s : List Char) : Bool :=
  s.any isCased && s.all (fun c => !isCased c || isUpperAscii c)

/-- Python `str.split('\n')` (keeps empty pieces, `''` ↦ `['']`). -/
def splitNL : List Char → List (List Char)
  | [] => [[]]
  | c :: cs =>
      if c == '\n' then [] :: splitNL cs
      else
        match splitNL cs with
        | l :: ls => (c :: l) :: ls
        | [] => [[c]]

/-- Python `str.split(sep)` for a one-character separator (keeps empty
pieces). -/
def splitOnChar (sep : Char) : List Char → List (List Char)
  | [] => [[]]
  | c :: cs =>
      if c == sep then [] :: splitOnChar sep cs
      else
        match splitOnChar sep cs with
        | l :: ls => (c :: l) :: ls
        | [] => [[c]]

/-- First `some` produced by `f` over a list, in order. -/
def firstSome {α β : Type} (f : α → Option β) : List α → Option β
  | [] => none
  | a :: rest =>
      match f a with
      | some b => some b
      | none => firstSome f rest

end PyStr

namespace OCR

namespace DocumentClassifier

/-- `DocumentClassifier.INVOICE_KEYWORDS`. -/
def INVOICE_KEYWORDS : List String :=
  ["invoice", "inv#", "invoice number", "invoice no", "bill to",
   "invoice date", "due date", "amount due", "total due"]

/-- `DocumentClassifier.RECEIPT_KEYWORDS`. -/
def RECEIPT_KEYWORDS : List String :=
  ["receipt", "thank you", "payment received", "transaction",
   "card ending", "change", "cash", "subtotal", "tax"]

/-- `DocumentClassifier.PO_KEYWORDS`. -/
def PO_KEYWORDS : List String :=
  ["purchase order", "po number", "po#", "p.o.", "order number",
   "delivery date", "ship to", "billing address"]

/-- `DocumentClassifier.BILL_KEYWORDS`. -/
def BILL_KEYWORDS : List String :=
  ["bill", "statement", "account number", "previous balance",
   "current charges", "amount owed"]

/-- Existence of a match of the regex `kw[#\s]*[\d-]+` (when
`allowHash = true`) or `kw\s*[\d-]+` (when `allowHash = false`) in `s`,
as `re.search` decides it.  The skipped class `[#\s]` is disjoint from
`[\d-]`, so skipping the maximal run is complete. -/
def searchKeyNum (kw : List Char) (allowHash : Bool) : List Char → Bool
  | [] => false
  | c :: cs =>
      (PyStr.startsWith kw (c :: cs) &&
        (let rest := (c :: cs).drop kw.length
         let rest2 := rest.dropWhile (fun d => (allowHash && d == '#') || PyStr.isSpace d)
         match rest2 with
         | [] => false
         | d :: _ => d.isDigit || d == '-'))
      || searchKeyNum kw allowHash cs

/-- Number of keywords of `kws` occurring (at least once) in `textLower`:
the `sum(1 for keyword in KEYWORDS if keyword in text_lower)` scoring of
`DocumentClassifier.classify`. -/
def keywordScore (kws : List String) (textLower : List Char) : Nat :=
  kws.countP (fun kw => PyStr.containsSub kw.data textLower)

/-- Invoice score of `classify`: keyword presence count plus the `+2`
bonus for `inv[#\s]*[\d-]+`. -/
def invoiceScore (textLower : List Char) : Nat :=
  keywordScore INVOICE_KEYWORDS textLower +
    (if searchKeyNum "inv".data true textLower then 2 else 0)

/-- Receipt score of `classify` (bonus pattern `receipt[#\s]*[\d-]+`). -/
def receiptScore (textLower : List Char) : Nat :=
  keywordScore RECEIPT_KEYWORDS textLower +
    (if searchKeyNum "receipt".data true textLower then 2 else 0)

/-- Purchase-order score of `classify` (bonus patterns `po[#\s]*[\d-]+`
and `p\.o\.\s*[\d-]+`). -/
def poScore (textLower : List Char) : Nat :=
  keywordScore PO_KEYWORDS textLower +
    (if searchKeyNum "po".data true textLower ||
        searchKeyNum "p.o.".data false textLower then 2 else 0)

/-- Bill score of `classify` (bonus pattern `bill[#\s]*[\d-]+`). -/
def billScore (textLower : List Char) : Nat :=
  keywordScore BILL_KEYWORDS textLower +
    (if searchKeyNum "bill".data true textLower then 2 else 0)

/-- The `scores` dict of `classify`, in its insertion order. -/
def scores (text : String) : List (String × Nat) :=
  let textLower := PyStr.lower text.data
  [("invoice", invoiceScore textLower),
   ("receipt", receiptScore textLower),
   ("purchase_order", poScore textLower),
   ("bill", billScore textLower)]

/-- Python `max(scores.values())` (all scores are naturals, so folding
from `0` agrees with the maximum of the non-empty value list). -/
def maxScore (text : String) : Nat :=
  ((scores text).map Prod.snd).foldl Nat.max 0

/-- Python `max(iterable, key=...)` over an association list: the first
entry whose value no later entry strictly exceeds. -/
def pyMaxBy : List (String × Nat) → Option (String × Nat)
  | [] => none
  | kv :: rest => some (rest.foldl (fun b x => if x.2 > b.2 then x else b) kv)

/-- `DocumentClassifier.classify` (`services/document_classifier.py`). -/
def classify (text : String) : String :=
  if 0 < maxScore text then
    ((pyMaxBy (scores text)).map Prod.fst).getD "unknown"
  else "unknown"

/-- Score of the document type named `ty`, read off the `scores` table. -/
def scoreOfName (text ty : String) : Nat := ((scores text).lookup ty).getD 0

/-- The document type the claims designate on ties: the first type in the
priority order Invoice > Receipt > PurchaseOrder > Bill whose score attains
the maximum score.  Spec-side definition, written from the claim's words,
to be compared with `classify`. -/
def firstPriorityMax (text : String) : String :=
  if scoreOfName text "invoice" = maxScore text then "invoice"
  else if scoreOfName text "receipt" = maxScore text then "receipt"
  else if scoreOfName text "purchase_order" = maxScore text then "purchase_order"
  else "bill"

/-- Keyword scoring as claim C2 words it: the total number of
case-insensitive substring occurrences of the set's keywords in the text
(spec-side definition, for comparison with `keywordScore`). -/
def occKeywordScore (kws : List String) (text : String) : Nat :=
  (kws.map (fun kw => PyStr.countOcc kw.data (PyStr.lower text.data))).sum

/-- Invoice score under the claim's occurrence-count reading. -/
def occInvoiceScore (text : String) : Nat :=
  occKeywordScore INVOICE_KEYWORDS text +
    (if searchKeyNum "inv".data true (PyStr.lower text.data) then 2 else 0)

/-- Receipt score under the claim's occurrence-count reading. -/
def occReceiptScore (text : String) : Nat :=
  occKeywordScore RECEIPT_KEYWORDS text +
    (if searchKeyNum "receipt".data true (PyStr.lower text.data) then 2 else 0)

/-- Purchase-order score under the claim's occurrence-count reading. -/
def occPoScore (text : String) : Nat :=
  occKeywordScore PO_KEYWORDS text +
    (if searchKeyNum "po".data true (PyStr.lower text.data) ||
        searchKeyNum "p.o.".data false (PyStr.lower text.data) then 2 else 0)

/-- Bill score under the claim's occurrence-count reading. -/
def occBillScore (text : String) : Nat :=
  occKeywordScore BILL_KEYWORDS text +
    (if searchKeyNum "bill".data true (PyStr.lower text.data) then 2 else 0)

end DocumentClassifier

namespace DocumentParser

/-- Value of a digit string, most significant first. -/
def digitsToNat (ds : List Char) : Nat :=
  ds.foldl (fun a c => a * 10 + (c.toNat - 48)) 0

/-- Python `str.replace(',', '')`. -/
def stripCommas (cs : List Char) : List Char := cs.filter (fun c => c != ',')

/-- Python `float(...)` on the strings the parser's regex groups produce
after comma removal: digit runs with at most one decimal point.  `none`
models the `ValueError` the source catches.  The value `ip.fp` is the
exact rational `(ip·10^|fp| + fp) / 10^|fp|`, built with `mkRat` so that
concrete runs reduce inside the kernel. -/
def pyFloat (cs : List Char) : Option ℚ :=
  match cs.drop (cs.takeWhile Char.isDigit).length with
  | [] =>
      if (cs.takeWhile Char.isDigit).isEmpty then none
      else some (mkRat (Int.ofNat (digitsToNat (cs.takeWhile Char.isDigit))) 1)
  | '.' :: fp =>
      if fp.all Char.isDigit && !((cs.takeWhile Char.isDigit).isEmpty && fp.isEmpty) then
        some (mkRat
          (Int.ofNat (digitsToNat (cs.takeWhile Char.isDigit) * 10 ^ fp.length + digitsToNat fp))
          (10 ^ fp.length))
      else none
  | _ => none

/-- Match a label made of literal words separated by `\s+` (as in
`grand\s+total`) at the head of `s`; return the rest on success. -/
def matchWords : List (List Char) → List Char → Option (List Char)
  | [], s => some s
  | [w], s => if PyStr.startsWith w s then some (s.drop w.length) else none
  | w :: ws, s =>
      if PyStr.startsWith w s then
        let r := s.drop w.length
        let r2 := r.dropWhile PyStr.isSpace
        if r2.length < r.length then matchWords ws r2 else none
      else none

/-- After a matched label, the tail `[:\s]*\$?([\d,]+\.?\d*)` of the
amount regexes: returns the captured group.  The skipped classes are
disjoint from the group's first class, so maximal munch is complete. -/
def amountGroup (s : List Char) : Option (List Char) :=
  let r := s.dropWhile (fun c => c == ':' || PyStr.isSpace c)
  let r2 := match r with
    | '$' :: rest => rest
    | _ => r
  let d1 := r2.takeWhile (fun c => c.isDigit || c == ',')
  match d1 with
  | [] => none
  | _ =>
      let r3 := r2.drop d1.length
      match r3 with
      | '.' :: r4 => some (d1 ++ '.' :: r4.takeWhile Char.isDigit)
      | _ => some d1

/-- `re.search` of a labeled amount pattern: the group of the leftmost
match of `LABEL[:\s]*\$?([\d,]+\.?\d*)` (call on lower-cased text for the
source's `re.IGNORECASE`). -/
def searchAmount (words : List (List Char)) : List Char → Option (List Char)
  | [] => (matchWords words []).bind amountGroup
  | c :: cs =>
      match (matchWords words (c :: cs)).bind amountGroup with
      | some g => some g
      | none => searchAmount words cs

/-- The `for pattern: if match: try float / except continue` loop shared by
`_extract_total_amount` and `_extract_tax_amount`. -/
def firstLabeledAmount : List (List String) → List Char → Option ℚ
  | [], _ => none
  | ws :: rest, tl =>
      match searchAmount (ws.map String.data) tl with
      | some g =>
          match pyFloat (stripCommas g) with
          | some v => some v
          | none => firstLabeledAmount rest tl
      | none => firstLabeledAmount rest tl

/-- The labeled patterns of `_extract_total_amount`, in source order. -/
def total_patterns : List (List String) := [["total"], ["grand", "total"], ["amount", "due"]]

/-- The labeled patterns of `_extract_tax_amount`, in source order. -/
def tax_patterns : List (List String) := [["tax"], ["gst"], ["vat"]]

/-- `re.findall(r'\$?([\d,]+\.\d{2})', text)` of `_extract_all_amounts`:
non-overlapping leftmost matches, scanning left to right.  Shortening the
greedy `[\d,]+` never helps (the run is followed by more `[\d,]`, never by
`.`), so the deterministic scan is complete.  `fuel` only bounds the
recursion; `fuel = length of the list` always suffices. -/
def findMoneyAux : Nat → List Char → List (List Char)
  | 0, _ => []
  | _ + 1, [] => []
  | fuel + 1, c :: cs =>
      let t := if c == '$' then cs else c :: cs
      let d1 := t.takeWhile (fun d => d.isDigit || d == ',')
      match d1, t.drop d1.length with
      | _ :: _, '.' :: e1 :: e2 :: rest =>
          if e1.isDigit && e2.isDigit then
            (d1 ++ ['.', e1, e2]) :: findMoneyAux fuel rest
          else findMoneyAux fuel cs
      | _, _ => findMoneyAux fuel cs

/-- All groups of the money pattern in `s`. -/
def findMoney (s : List Char) : List (List Char) := findMoneyAux s.length s

/-- Insertion into a descending list. -/
def insertDesc (x : ℚ) : List ℚ → List ℚ
  | [] => [x]
  | y :: ys => if y < x then x :: y :: ys else y :: insertDesc x ys

/-- Descending insertion sort: `sorted(..., reverse=True)`. -/
def sortDesc (l : List ℚ) : List ℚ := l.foldr insertDesc []

/-- `DocumentParser._extract_all_amounts`: all matched amounts parsed,
kept when strictly positive, deduplicated and sorted descending. -/
def extract_all_amounts (text : String) : List ℚ :=
  let amounts := (findMoney text.data).filterMap
    (fun g => (pyFloat (stripCommas g)).bind (fun v => if 0 < v then some v else none))
  sortDesc amounts.dedup

/-- `DocumentParser._extract_amount`: `max(amounts)` when non-empty. -/
def extract_amount (text : String) : Option ℚ :=
  match extract_all_amounts text with
  | [] => none
  | a :: rest => some (rest.foldl Max.max a)

/-- `DocumentParser._extract_total_amount`. -/
def extract_total_amount (text : String) : Option ℚ :=
  match firstLabeledAmount total_patterns (PyStr.lower text.data) with
  | some v => some v
  | none => extract_amount text

/-- `DocumentParser._extract_tax_amount` (no fallback). -/
def extract_tax_amount (text : String) : Option ℚ :=
  firstLabeledAmount tax_patterns (PyStr.lower text.data)

/-- The `[\x2f-]` class of the date patterns. -/
def dateSep (c : Char) : Bool := c == '/' || c == '-'

/-- Anchored match of `\d{1,2}[\x2f-]\d{1,2}[\x2f-]\d{2,4}`: the group and the
rest of the input after it.  A digit run longer than the bound kills the
position (the shorter greedy choices are still followed by a digit, never
by a separator), so runs must fit the bounds exactly except the final one,
which is cut greedily at four digits. -/
def matchBareDate (s : List Char) : Option (List Char × List Char) :=
  let r1 := s.takeWhile Char.isDigit
  if 1 ≤ r1.length ∧ r1.length ≤ 2 then
    match s.drop r1.length with
    | c1 :: s1 =>
        if dateSep c1 then
          let r2 := s1.takeWhile Char.isDigit
          if 1 ≤ r2.length ∧ r2.length ≤ 2 then
            match s1.drop r2.length with
            | c2 :: s2 =>
                if dateSep c2 then
                  let r3 := s2.takeWhile Char.isDigit
                  if 2 ≤ r3.length then
                    let t3 := r3.take 4
                    some (r1 ++ c1 :: (r2 ++ c2 :: t3), s2.drop t3.length)
                  else none
                else none
            | [] => none
          else none
        else none
    | [] => none
  else none

/-- Anchored match of `\d{4}[\x2f-]\d{1,2}[\x2f-]\d{1,2}` (same conventions). -/
def matchIsoDate (s : List Char) : Option (List Char × List Char) :=
  let r1 := s.takeWhile Char.isDigit
  if r1.length = 4 then
    match s.drop 4 with
    | c1 :: s1 =>
        if dateSep c1 then
          let r2 := s1.takeWhile Char.isDigit
          if 1 ≤ r2.length ∧ r2.length ≤ 2 then
            match s1.drop r2.length with
            | c2 :: s2 =>
                if dateSep c2 then
                  let r3 := s2.takeWhile Char.isDigit
                  if 1 ≤ r3.length then
                    let t3 := r3.take 2
                    some (r1 ++ c1 :: (r2 ++ c2 :: t3), s2.drop t3.length)
                  else none
                else none
            | [] => none
          else none
        else none
    | [] => none
  else none

/-- `re.findall` for the bare date pattern
`(\d{1,2}[\x2f-]\d{1,2}[\x2f-]\d{2,4})`. -/
def findBareDates : Nat → List Char → List (List Char)
  | 0, _ => []
  | _ + 1, [] => []
  | fuel + 1, c :: cs =>
      match matchBareDate (c :: cs) with
      | some (g, rest) => g :: findBareDates fuel rest
      | none => findBareDates fuel cs

/-- `re.findall` for `date[:\s]*(\d{1,2}[\x2f-]\d{1,2}[\x2f-]\d{2,4})` — the
label is matched case-sensitively, as the source compiles it without
`re.IGNORECASE`. -/
def findLabeledDates : Nat → List Char → List (List Char)
  | 0, _ => []
  | _ + 1, [] => []
  | fuel + 1, c :: cs =>
      if PyStr.startsWith "date".data (c :: cs) then
        match matchBareDate (((c :: cs).drop 4).dropWhile (fun d => d == ':' || PyStr.isSpace d)) with
        | some (g, rest) => g :: findLabeledDates fuel rest
        | none => findLabeledDates fuel cs
      else findLabeledDates fuel cs

/-- `re.findall` for `(\d{4}[\x2f-]\d{1,2}[\x2f-]\d{1,2})`. -/
def findIsoDates : Nat → List Char → List (List Char)
  | 0, _ => []
  | _ + 1, [] => []
  | fuel + 1, c :: cs =>
      match matchIsoDate (c :: cs) with
      | some (g, rest) => g :: findIsoDates fuel rest
      | none => findIsoDates fuel cs

/-- Gregorian leap year. -/
def isLeap (y : Nat) : Bool := (y % 4 == 0 && y % 100 != 0) || y % 400 == 0

/-- Days in a month. -/
def daysInMonth (y m : Nat) : Nat :=
  if m = 2 then (if isLeap y then 29 else 28)
  else if m = 4 ∨ m = 6 ∨ m = 9 ∨ m = 11 then 30
  else 31

/-- A calendar date when the components are valid (`datetime` requires
year ≥ 1), else `none`. -/
def mkDate (y m d : Nat) : Option (Nat × Nat × Nat) :=
  if 1 ≤ y ∧ 1 ≤ m ∧ m ≤ 12 ∧ 1 ≤ d ∧ d ≤ daysInMonth y m then some (y, m, d)
  else none

/-- Two-digit years land in the library's moving mid-century window. -/
def convertYear2 (y : Nat) : Nat := if y ≤ 73 then 2000 + y else 1900 + y

/-- Modelled from the spec: candidate parsing is delegated to a
"lenient/fuzzy date parser" (the third-party `dateutil.parser`, not part of
the repository source).  Restricted to the candidates the three date
regexes can produce — exactly three dash-separated digit runs after the
source's `'/' → '-'` replacement — the parser resolves a four-digit run as
the year, otherwise reads month-day-year, swaps day and month when the
month slot exceeds 12, windows two-digit years, and fails on invalid
calendar dates. -/
def parseDateCandidate (cs : List Char) : Option (Nat × Nat × Nat) :=
  match (PyStr.splitOnChar '-' cs).map (fun p => (p.length, digitsToNat p)) with
  | [(l1, n1), (_, n2), (l3, n3)] =>
      if l1 = 4 then
        if n2 ≤ 12 then mkDate n1 n2 n3
        else if n3 ≤ 12 then mkDate n1 n3 n2
        else none
      else if l3 = 4 then
        if n1 ≤ 12 then mkDate n3 n1 n2
        else if n2 ≤ 12 then mkDate n3 n2 n1
        else none
      else
        if n1 ≤ 12 then mkDate (convertYear2 n3) n1 n2
        else if n2 ≤ 12 then mkDate (convertYear2 n3) n2 n1
        else none
  | _ => none

/-- Left-pad with zeros to width `w`. -/
def padZero (w : Nat) (s : List Char) : List Char :=
  List.replicate (w - s.length) '0' ++ s

/-- `strftime('%Y-%m-%d')`. -/
def formatYMD (y m d : Nat) : String :=
  ⟨padZero 4 (Nat.toDigits 10 y) ++ '-' :: (padZero 2 (Nat.toDigits 10 m) ++ '-' :: padZero 2 (Nat.toDigits 10 d))⟩

/-- The source's `match.replace('/', '-')`. -/
def slashToDash (cs : List Char) : List Char :=
  cs.map (fun c => if c == '/' then '-' else c)

/-- The inner loop of `_extract_date`: first candidate that parses, as a
normalized date string. -/
def tryCandidates : List (List Char) → Option String
  | [] => none
  | g :: rest =>
      match parseDateCandidate (slashToDash g) with
      | some (y, m, d) => some (formatYMD y m d)
      | none => tryCandidates rest

/-- `DocumentParser._extract_date`: the three patterns in source order,
falling through to the next pattern when no candidate of the current one
parses. -/
def extract_date (text : String) : Option String :=
  match tryCandidates (findLabeledDates text.data.length text.data) with
  | some s => some s
  | none =>
      match tryCandidates (findBareDates text.data.length text.data) with
      | some s => some s
      | none => tryCandidates (findIsoDates text.data.length text.data)

/-- The company-suffix indicator list of `_extract_vendor_name`. -/
def COMPANY_INDICATORS : List String := ["inc", "ltd", "llc", "corp", "company"]

/-- The class of `re.match(r'^[\d\s\$\.,:]+$', line)`. -/
def numSymChar (c : Char) : Bool :=
  c.isDigit || PyStr.isSpace c || c == '$' || c == '.' || c == ',' || c == ':'

/-- The per-line body of `_extract_vendor_name`'s loop: the stripped line
when the source returns it, else `none`. -/
def isVendorLine (line : List Char) : Option (List Char) :=
  let l := PyStr.pyStrip line
  if 3 < l.length ∧ l.length < 100 then
    if !(l.all numSymChar) then
      if COMPANY_INDICATORS.any (fun kw => PyStr.containsSub kw.data (PyStr.lower l)) then some l
      else if PyStr.pyIsUpper l ∧ 5 ≤ l.length ∧ l.length ≤ 50 then some l
      else none
    else none
  else none

/-- `DocumentParser._extract_vendor_name`: first accepted line among the
first ten. -/
def extract_vendor_name (text : String) : Option String :=
  (PyStr.firstSome isVendorLine ((PyStr.splitNL text.data).take 10)).map fun l => ⟨l⟩

/-- Claim C7's amended acceptance rule for a trimmed line (spec-side):
between 4 and 99 characters, not entirely digits/whitespace/`$.,:`
symbols, and carrying a company suffix or fully upper-case of length 5 to
50. -/
def acceptedLineAmended (l : List Char) : Bool :=
  decide (4 ≤ l.length ∧ l.length ≤ 99) && !(l.all numSymChar) &&
  (COMPANY_INDICATORS.any (fun kw => PyStr.containsSub kw.data (PyStr.lower l)) ||
   (PyStr.pyIsUpper l && decide (5 ≤ l.length ∧ l.length ≤ 50)))

/-- Claim C7's amended vendor rule, written from the amended claim's
words: trim the first ten lines, return the first one the amended rule
accepts. -/
def vendorAmendedSpec (text : String) : Option String :=
  ((((PyStr.splitNL text.data).take 10).map PyStr.pyStrip).find? acceptedLineAmended).map
    fun l => ⟨l⟩

end DocumentParser

namespace ImageUtils

/-- `resize_image` of `utils/image_utils.py`, on the image's
`(width, height)`.  The source computes the scaled side as
`int(height * (max_dimension / width))` in IEEE floating point; the model
uses exact natural floor division — the two agree except where the float
quotient crosses an integer, a discrepancy inside the claims' one-pixel
tolerance. -/
def resize_image (width height : Nat) (maxDimension : Nat) : Nat × Nat :=
  if width ≤ maxDimension ∧ height ≤ maxDimension then (width, height)
  else if height < width then (maxDimension, height * maxDimension / width)
  else (width * maxDimension / height, maxDimension)

end ImageUtils

namespace OCREngine

/-- The confidence aggregation of `OCREngine.extract_with_confidence`:
keep per-token confidences strictly greater than zero, average them when
any remain (else report zero), and rescale from [0,100] to [0,1]. -/
def aggregate_confidence (confs : List Int) : ℚ :=
  let cs := confs.filter (fun c => decide (0 < c))
  (if cs.isEmpty then 0 else (cs.sum : ℚ) / cs.length) / 100

end OCREngine

namespace App

/-- `models/schemas.py` `ExtractedData` (all fields default to absent;
`line_items` is the always-empty list of key-value maps). -/
structure ExtractedData where
  document_number : Option String := none
  date : Option String := none
  amount : Option ℚ := none
  total_amount : Option ℚ := none
  tax_amount : Option ℚ := none
  vendor_name : Option String := none
  vendor_address : Option String := none
  line_items : List (List (String × String)) := []
deriving DecidableEq

/-- `models/schemas.py` `ProcessResponse`. -/
structure ProcessResponse where
  success : Bool
  confidence : ℚ
  document_type : String
  extracted_data : ExtractedData
  raw_text : String
  error : Option String := none
deriving DecidableEq

/-- The post-OCR stage of `process_document` (`app.py`): from the OCR
result's text and aggregate confidence to the response.  The classifier
and field extractor are passed as parameters, so that the gate's
independence from both ("without invoking" them) is expressible by
quantifying over them. -/
def process_document (classifier : String → String)
    (extractor : String → String → ExtractedData)
    (text : String) (confidence : ℚ) : ProcessResponse :=
  if text = "" ∨ confidence < 1 / 10 then
    { success := false
      confidence := confidence
      document_type := "unknown"
      extracted_data := {}
      raw_text := text
      error := some "No text detected in image or confidence too low" }
  else
    let dt := classifier text
    { success := true
      confidence := confidence
      document_type := dt
      extracted_data := extractor text dt
      raw_text := text
      error := none }

end App

end OCR

set_option maxHeartbeats 2000000 in
open OCR.DocumentClassifier in
/-- Helper: the Python first-wins `max(..., key=...)` over the four-entry
score table picks the first entry attaining the maximum value. -/
theorem pyMaxBy_quadruple (a b c d : Nat) :
    ((pyMaxBy [("invoice", a), ("receipt", b), ("purchase_order", c), ("bill", d)]).map
        Prod.fst).getD "unknown"
      = (if a = [a, b, c, d].foldl Nat.max 0 then "invoice"
         else if b = [a, b, c, d].foldl Nat.max 0 then "receipt"
         else if c = [a, b, c, d].foldl Nat.max 0 then "purchase_order"
         else "bill") := by
  simp only [pyMaxBy, List.foldl_cons, List.foldl_nil, Option.map_some', Option.getD_some,
    apply_ite Prod.snd, apply_ite Prod.fst, Nat.zero_max]
  simp only [Nat.max_def]
  split_ifs <;> first | rfl | omega

open OCR.DocumentClassifier in
/-- Helper: reading the invoice entry of the score table. -/
theorem scoreOfName_invoice (t : String) :
    scoreOfName t "invoice" = invoiceScore (PyStr.lower t.data) := rfl

open OCR.DocumentClassifier in
/-- Helper: reading the receipt entry of the score table. -/
theorem scoreOfName_receipt (t : String) :
    scoreOfName t "receipt" = receiptScore (PyStr.lower t.data) := rfl

open OCR.DocumentClassifier in
/-- Helper: reading the purchase-order entry of the score table. -/
theorem scoreOfName_po (t : String) :
    scoreOfName t "purchase_order" = poScore (PyStr.lower t.data) := rfl

open OCR.DocumentClassifier in
/-- Helper: reading the bill entry of the score table. -/
theorem scoreOfName_bill (t : String) :
    scoreOfName t "bill" = billScore (PyStr.lower t.data) := rfl

open OCR.DocumentClassifier in
/-- Helper: the maximum score, unfolded to the four type scores. -/
theorem maxScore_unfold (t : String) :
    maxScore t =
      [invoiceScore (PyStr.lower t.data), receiptScore (PyStr.lower t.data),
       poScore (PyStr.lower t.data), billScore (PyStr.lower t.data)].foldl Nat.max 0 := rfl

open OCR.DocumentClassifier in
/-- Helper: whenever some score is positive, `classify` returns the first
type in the Invoice > Receipt > PurchaseOrder > Bill order attaining the
maximum score. -/
theorem classify_eq_firstPriorityMax (t : String) (h : 0 < maxScore t) :
    classify t = firstPriorityMax t := by
  have e : classify t = ((pyMaxBy (scores t)).map Prod.fst).getD "unknown" := by
    unfold OCR.DocumentClassifier.classify
    rw [if_pos h]
  have hs : scores t =
      [("invoice", invoiceScore (PyStr.lower t.data)),
       ("receipt", receiptScore (PyStr.lower t.data)),
       ("purchase_order", poScore (PyStr.lower t.data)),
       ("bill", billScore (PyStr.lower t.data))] := rfl
  rw [e, hs, pyMaxBy_quadruple]
  unfold OCR.DocumentClassifier.firstPriorityMax
  rw [scoreOfName_invoice, scoreOfName_receipt, scoreOfName_po, maxScore_unfold]

open OCR.DocumentClassifier in
/-- Helper: a strictly dominant invoice score makes `classify` return
"invoice". -/
theorem classify_invoice_strict (t : String)
    (h1 : receiptScore (PyStr.lower t.data) < invoiceScore (PyStr.lower t.data))
    (h2 : poScore (PyStr.lower t.data) < invoiceScore (PyStr.lower t.data))
    (h3 : billScore (PyStr.lower t.data) < invoiceScore (PyStr.lower t.data)) :
    classify t = "invoice" := by
  have hm : maxScore t = invoiceScore (PyStr.lower t.data) := by
    rw [maxScore_unfold]
    simp only [List.foldl_cons, List.foldl_nil, Nat.max_def]
    split_ifs <;> omega
  have hp : 0 < maxScore t := by omega
  rw [classify_eq_firstPriorityMax t hp]
  unfold OCR.DocumentClassifier.firstPriorityMax
  rw [scoreOfName_invoice, hm, if_pos rfl]

open OCR.DocumentClassifier in
/-- Helper: a strictly dominant receipt score makes `classify` return
"receipt". -/
theorem classify_receipt_strict (t : String)
    (h1 : invoiceScore (PyStr.lower t.data) < receiptScore (PyStr.lower t.data))
    (h2 : poScore (PyStr.lower t.data) < receiptScore (PyStr.lower t.data))
    (h3 : billScore (PyStr.lower t.data) < receiptScore (PyStr.lower t.data)) :
    classify t = "receipt" := by
  have hm : maxScore t = receiptScore (PyStr.lower t.data) := by
    rw [maxScore_unfold]
    simp only [List.foldl_cons, List.foldl_nil, Nat.max_def]
    split_ifs <;> omega
  have hp : 0 < maxScore t := by omega
  rw [classify_eq_firstPriorityMax t hp]
  unfold OCR.DocumentClassifier.firstPriorityMax
  rw [scoreOfName_invoice, scoreOfName_receipt, hm, if_neg (by omega), if_pos rfl]

open OCR.DocumentClassifier in
/-- Helper: a strictly dominant purchase-order score makes `classify`
return "purchase_order". -/
theorem classify_po_strict (t : String)
    (h1 : invoiceScore (PyStr.lower t.data) < poScore (PyStr.lower t.data))
    (h2 : receiptScore (PyStr.lower t.data) < poScore (PyStr.lower t.data))
    (h3 : billScore (PyStr.lower t.data) < poScore (PyStr.lower t.data)) :
    classify t = "purchase_order" := by
  have hm : maxScore t = poScore (PyStr.lower t.data) := by
    rw [maxScore_unfold]
    simp only [List.foldl_cons, List.foldl_nil, Nat.max_def]
    split_ifs <;> omega
  have hp : 0 < maxScore t := by omega
  rw [classify_eq_firstPriorityMax t hp]
  unfold OCR.DocumentClassifier.firstPriorityMax
  rw [scoreOfName_invoice, scoreOfName_receipt, scoreOfName_po, hm,
    if_neg (by omega), if_neg (by omega), if_pos rfl]

open OCR.DocumentClassifier in
/-- Helper: a strictly dominant bill score makes `classify` return
"bill". -/
theorem classify_bill_strict (t : String)
    (h1 : invoiceScore (PyStr.lower t.data) < billScore (PyStr.lower t.data))
    (h2 : receiptScore (PyStr.lower t.data) < billScore (PyStr.lower t.data))
    (h3 : poScore (PyStr.lower t.data) < billScore (PyStr.lower t.data)) :
    classify t = "bill" := by
  have hm : maxScore t = billScore (PyStr.lower t.data) := by
    rw [maxScore_unfold]
    simp only [List.foldl_cons, List.foldl_nil, Nat.max_def]
    split_ifs <;> omega
  have hp : 0 < maxScore t := by omega
  rw [classify_eq_firstPriorityMax t hp]
  unfold OCR.DocumentClassifier.firstPriorityMax
  rw [scoreOfName_invoice, scoreOfName_receipt, scoreOfName_po, hm,
    if_neg (by omega), if_neg (by omega), if_neg (by omega)]

open OCR.DocumentClassifier in
/-- C2, counterexample: the claim scores by *occurrence counts* of each
keyword.  On "tax tax tax bill to" that scoring makes Receipt the strict
maximum (3 occurrences of "tax", against 1 for Invoice via "bill to",
0 for PurchaseOrder and 1 for Bill, with no numbering-pattern bonus), so
the claim demands "receipt" — but the code counts each keyword at most
once, ties all three at 1, and returns "invoice". -/
theorem C2_counterexample :
    classify "tax tax tax bill to" = "invoice" ∧
    occInvoiceScore "tax tax tax bill to" = 1 ∧
    occReceiptScore "tax tax tax bill to" = 3 ∧
    occPoScore "tax tax tax bill to" = 0 ∧
    occBillScore "tax tax tax bill to" = 1 := by
  exact ⟨rfl, rfl, rfl, rfl, rfl⟩

open OCR.DocumentClassifier in
/-- C2 (amended): the classifier scores each type by keyword *presence* —
each keyword contributes exactly one point when it occurs, however many
times — plus the fixed +2 bonus when the type's numbering pattern
matches; a type whose total strictly exceeds all others is returned, and
when the maximum score over the four types is zero the classifier returns
"unknown".  In particular a text containing an Invoice keyword (even
repeatedly) and nothing scored by any other type classifies as "invoice",
and a text matching no keyword or pattern classifies as "unknown". -/
theorem C2_presence_scoring :
    (∀ (kws : List String) (tl : List Char), keywordScore kws tl ≤ kws.length) ∧
    (∀ t : String, maxScore t = 0 → classify t = "unknown") ∧
    (∀ t : String,
      receiptScore (PyStr.lower t.data) < invoiceScore (PyStr.lower t.data) →
      poScore (PyStr.lower t.data) < invoiceScore (PyStr.lower t.data) →
      billScore (PyStr.lower t.data) < invoiceScore (PyStr.lower t.data) →
      classify t = "invoice") ∧
    (∀ t : String,
      invoiceScore (PyStr.lower t.data) < receiptScore (PyStr.lower t.data) →
      poScore (PyStr.lower t.data) < receiptScore (PyStr.lower t.data) →
      billScore (PyStr.lower t.data) < receiptScore (PyStr.lower t.data) →
      classify t = "receipt") ∧
    (∀ t : String,
      invoiceScore (PyStr.lower t.data) < poScore (PyStr.lower t.data) →
      receiptScore (PyStr.lower t.data) < poScore (PyStr.lower t.data) →
      billScore (PyStr.lower t.data) < poScore (PyStr.lower t.data) →
      classify t = "purchase_order") ∧
    (∀ t : String,
      invoiceScore (PyStr.lower t.data) < billScore (PyStr.lower t.data) →
      receiptScore (PyStr.lower t.data) < billScore (PyStr.lower t.data) →
      poScore (PyStr.lower t.data) < billScore (PyStr.lower t.data) →
      classify t = "bill") ∧
    classify "invoice invoice zzz" = "invoice" ∧
    classify "qqq zzz" = "unknown" := by
  refine ⟨fun kws tl => ?_, fun t h => ?_, classify_invoice_strict, classify_receipt_strict,
    classify_po_strict, classify_bill_strict, rfl, rfl⟩
  · exact List.countP_le_length _
  · unfold OCR.DocumentClassifier.classify
    rw [if_neg (by omega)]

open OCR.DocumentClassifier in
/-- C2, witness: the amended theorem applied at concrete inputs — the
empty text (zero maximum) and one strictly dominant text per type. -/
theorem C2_presence_scoring_witness :
    classify "" = "unknown" ∧
    classify "deluxe invoice" = "invoice" ∧
    classify "cash only" = "receipt" ∧
    classify "ship to warehouse" = "purchase_order" ∧
    classify "statement" = "bill" ∧
    keywordScore INVOICE_KEYWORDS (PyStr.lower "invoice invoice".data) ≤
      INVOICE_KEYWORDS.length :=
  ⟨C2_presence_scoring.2.1 "" (by decide),
   C2_presence_scoring.2.2.1 "deluxe invoice" (by decide) (by decide) (by decide),
   C2_presence_scoring.2.2.2.1 "cash only" (by decide) (by decide) (by decide),
   C2_presence_scoring.2.2.2.2.1 "ship to warehouse" (by decide) (by decide) (by decide),
   C2_presence_scoring.2.2.2.2.2.1 "statement" (by decide) (by decide) (by decide),
   C2_presence_scoring.1 INVOICE_KEYWORDS (PyStr.lower "invoice invoice".data)⟩

open OCR.DocumentClassifier in
/-- C3: on any text where two or more document types tie at the maximum
nonzero score, `classify` deterministically returns the first
maximum-attaining type in the fixed priority order
Invoice > Receipt > PurchaseOrder > Bill (`firstPriorityMax`). -/
theorem C3_tie_priority (t : String)
    (hpos : 0 < maxScore t)
    (htie : 2 ≤ ((scores t).map Prod.snd).count (maxScore t)) :
    classify t = firstPriorityMax t :=
  classify_eq_firstPriorityMax t hpos

open OCR.DocumentClassifier in
/-- C3, witness: "tax bill to" ties Invoice, Receipt and Bill at the
maximum score 1; the tie resolves to "invoice". -/
theorem C3_tie_priority_witness :
    classify "tax bill to" = firstPriorityMax "tax bill to" ∧
    classify "tax bill to" = "invoice" :=
  ⟨C3_tie_priority "tax bill to" (by decide) (by decide), rfl⟩

/-- C1: if the extracted text is empty or the aggregate confidence is
strictly below 0.10, the pipeline returns an unsuccessful response
carrying the low confidence, type "unknown", an empty record, the raw
text unchanged and the descriptive error — identically for *every*
classifier and extractor, i.e. without invoking either; otherwise it
returns success with the classifier's type and the extractor's record. -/
theorem C1_confidence_gate (classifier : String → String)
    (extractor : String → String → OCR.App.ExtractedData)
    (text : String) (confidence : ℚ) :
    (text = "" ∨ confidence < 1 / 10 →
      OCR.App.process_document classifier extractor text confidence =
        { success := false, confidence := confidence, document_type := "unknown",
          extracted_data := {}, raw_text := text,
          error := some "No text detected in image or confidence too low" }) ∧
    (¬(text = "" ∨ confidence < 1 / 10) →
      OCR.App.process_document classifier extractor text confidence =
        { success := true, confidence := confidence,
          document_type := classifier text,
          extracted_data := extractor text (classifier text),
          raw_text := text, error := none }) := by
  constructor
  · intro h
    unfold OCR.App.process_document
    rw [if_pos h]
  · intro h
    unfold OCR.App.process_document
    rw [if_neg h]

/-- C1, witness: the gate at confidence 0.05 on non-empty text, and the
successful path at confidence 0.5, with concrete stand-ins for the
classifier and extractor. -/
theorem C1_confidence_gate_witness :
    OCR.App.process_document (fun _ => "invoice") (fun _ _ => {}) "abc" (1 / 20) =
      { success := false, confidence := 1 / 20, document_type := "unknown",
        extracted_data := {}, raw_text := "abc",
        error := some "No text detected in image or confidence too low" } ∧
    OCR.App.process_document (fun _ => "invoice") (fun _ _ => {}) "abc" (1 / 2) =
      { success := true, confidence := 1 / 2, document_type := "invoice",
        extracted_data := {}, raw_text := "abc", error := none } :=
  ⟨(C1_confidence_gate _ _ "abc" (1 / 20)).1 (Or.inr (by norm_num)),
   (C1_confidence_gate _ _ "abc" (1 / 2)).2
     (not_or.mpr ⟨by decide, by norm_num⟩)⟩

/-- C10: when no token confidence is strictly positive, the filtered list
is empty, the aggregate confidence is exactly 0 (the mean is never formed
over the empty list) and the pipeline's gate therefore reports an
unsuccessful result, whatever the classifier and extractor. -/
theorem C10_all_nonpositive_confidence (confs : List Int) (h : ∀ c ∈ confs, c ≤ 0) :
    OCR.OCREngine.aggregate_confidence confs = 0 ∧
    ∀ (classifier : String → String)
      (extractor : String → String → OCR.App.ExtractedData) (text : String),
      (OCR.App.process_document classifier extractor text
        (OCR.OCREngine.aggregate_confidence confs)).success = false := by
  have hf : confs.filter (fun c => decide (0 < c)) = [] := by
    rw [List.filter_eq_nil_iff]
    intro c hc
    simpa using not_lt.mpr (h c hc)
  have h0 : OCR.OCREngine.aggregate_confidence confs = 0 := by
    unfold OCR.OCREngine.aggregate_confidence
    rw [hf]
    norm_num
  refine ⟨h0, fun classifier extractor text => ?_⟩
  rw [h0]
  unfold OCR.App.process_document
  rw [if_pos (Or.inr (by norm_num))]

/-- C10, witness: a confidence list with only the non-text sentinel and a
zero entry aggregates to 0 and fails the gate. -/
theorem C10_all_nonpositive_confidence_witness :
    OCR.OCREngine.aggregate_confidence [-1, 0] = 0 ∧
    (OCR.App.process_document (fun _ => "unknown") (fun _ _ => {}) "some text"
      (OCR.OCREngine.aggregate_confidence [-1, 0])).success = false :=
  ⟨(C10_all_nonpositive_confidence [-1, 0] (by decide)).1,
   (C10_all_nonpositive_confidence [-1, 0] (by decide)).2 _ _ "some text"⟩

/-- Helper: floor-division bounds, `b * (a / b) ≤ a < b * (a / b + 1)`. -/
theorem div_mul_bounds (a b : Nat) (hb : 0 < b) :
    b * (a / b) ≤ a ∧ a < b * (a / b + 1) := by
  have e := Nat.div_add_mod a b
  have hlt := Nat.mod_lt a hb
  constructor
  · exact Nat.le.intro e
  · have h2 := Nat.add_lt_add_left hlt (b * (a / b))
    rw [e] at h2
    rw [Nat.mul_succ]
    exact h2

/-- C8: with both dimensions at most `m`, resizing is the identity; with
one dimension exceeding `m`, the longer output side is exactly `m` and
the other side is the aspect-preserving value rounded down — within one
pixel of the exact ratio (`longer * other' ≤ other * m < longer * (other' + 1)`). -/
theorem C8_resize (w h m : Nat) :
    (w ≤ m ∧ h ≤ m → OCR.ImageUtils.resize_image w h m = (w, h)) ∧
    (m < w ∨ m < h →
      Nat.max (OCR.ImageUtils.resize_image w h m).1 (OCR.ImageUtils.resize_image w h m).2 = m ∧
      (h < w →
        (OCR.ImageUtils.resize_image w h m).1 = m ∧
        w * (OCR.ImageUtils.resize_image w h m).2 ≤ h * m ∧
        h * m < w * ((OCR.ImageUtils.resize_image w h m).2 + 1)) ∧
      (w ≤ h →
        (OCR.ImageUtils.resize_image w h m).2 = m ∧
        h * (OCR.ImageUtils.resize_image w h m).1 ≤ w * m ∧
        w * m < h * ((OCR.ImageUtils.resize_image w h m).1 + 1))) := by
  constructor
  · intro hle
    unfold OCR.ImageUtils.resize_image
    rw [if_pos hle]
  · intro hgt
    by_cases hw : h < w
    · have hw0 : 0 < w := by omega
      have e : OCR.ImageUtils.resize_image w h m = (m, h * m / w) := by
        unfold OCR.ImageUtils.resize_image
        rw [if_neg (by omega), if_pos hw]
      obtain ⟨b1, b2⟩ := div_mul_bounds (h * m) w hw0
      have hle : h * m / w ≤ m := by
        calc h * m / w ≤ w * m / w := Nat.div_le_div_right (Nat.mul_le_mul_right m hw.le)
        _ = m := Nat.mul_div_cancel_left m hw0
      rw [e]
      refine ⟨?_, fun _ => ⟨rfl, b1, b2⟩, fun hcon => absurd hcon (by omega)⟩
      dsimp only
      simp only [Nat.max_def]
      split_ifs <;> omega
    · have hwh : w ≤ h := by omega
      have hh0 : 0 < h := by omega
      have e : OCR.ImageUtils.resize_image w h m = (w * m / h, m) := by
        unfold OCR.ImageUtils.resize_image
        rw [if_neg (by omega), if_neg hw]
      obtain ⟨b1, b2⟩ := div_mul_bounds (w * m) h hh0
      have hle : w * m / h ≤ m := by
        calc w * m / h ≤ h * m / h := Nat.div_le_div_right (Nat.mul_le_mul_right m hwh)
        _ = m := Nat.mul_div_cancel_left m hh0
      rw [e]
      refine ⟨?_, fun hcon => absurd hcon (by omega), fun _ => ⟨rfl, b1, b2⟩⟩
      dsimp only
      simp only [Nat.max_def]
      split_ifs <;> omega

/-- C8, witness: a small image passes through; a 3000×1000 image resizes
to 2000×666 with the longer side exactly 2000. -/
theorem C8_resize_witness :
    OCR.ImageUtils.resize_image 500 400 2000 = (500, 400) ∧
    Nat.max (OCR.ImageUtils.resize_image 3000 1000 2000).1
      (OCR.ImageUtils.resize_image 3000 1000 2000).2 = 2000 ∧
    (OCR.ImageUtils.resize_image 3000 1000 2000).1 = 2000 :=
  ⟨(C8_resize 500 400 2000).1 (by decide),
   ((C8_resize 3000 1000 2000).2 (by decide)).1,
   (((C8_resize 3000 1000 2000).2 (by decide)).2.1 (by decide)).1⟩

/-- Helper: a left fold of `max` lands on its seed or one of the list
elements. -/
theorem foldl_max_mem (a : ℚ) (l : List ℚ) : l.foldl Max.max a ∈ a :: l := by
  induction l generalizing a with
  | nil => simp
  | cons b bs ih =>
      simp only [List.foldl_cons]
      rcases List.mem_cons.mp (ih (Max.max a b)) with h | h
      · rw [h]
        rcases max_choice a b with e | e <;> rw [e] <;> simp
      · exact List.mem_cons_of_mem _ (List.mem_cons_of_mem _ h)

/-- Helper: a left fold of `max` bounds the seed and every element. -/
theorem foldl_max_le (l : List ℚ) : ∀ (a : ℚ), ∀ x ∈ a :: l, x ≤ l.foldl Max.max a := by
  induction l with
  | nil =>
      intro a x hx
      rw [List.mem_singleton] at hx
      simp [hx]
  | cons b bs ih =>
      intro a x hx
      simp only [List.foldl_cons]
      rcases List.mem_cons.mp hx with rfl | hx2
      · exact le_trans (le_max_left x b) (ih _ _ (List.mem_cons_self _ _))
      · rcases List.mem_cons.mp hx2 with rfl | hx3
        · exact le_trans (le_max_right a x) (ih _ _ (List.mem_cons_self _ _))
        · exact ih _ _ (List.mem_cons_of_mem _ hx3)

/-- Helper: membership in a descending insertion. -/
theorem mem_insertDesc {x y : ℚ} {l : List ℚ} :
    y ∈ OCR.DocumentParser.insertDesc x l ↔ y = x ∨ y ∈ l := by
  induction l with
  | nil => simp [OCR.DocumentParser.insertDesc]
  | cons a as ih =>
      by_cases h : a < x
      · simp only [OCR.DocumentParser.insertDesc, if_pos h, List.mem_cons]
      · simp only [OCR.DocumentParser.insertDesc, if_neg h, List.mem_cons, ih]
        tauto

/-- Helper: the descending sort is a permutation membership-wise. -/
theorem mem_sortDesc {y : ℚ} {l : List ℚ} :
    y ∈ OCR.DocumentParser.sortDesc l ↔ y ∈ l := by
  induction l with
  | nil => simp [OCR.DocumentParser.sortDesc]
  | cons a as ih =>
      show y ∈ OCR.DocumentParser.insertDesc a (OCR.DocumentParser.sortDesc as) ↔ _
      rw [mem_insertDesc, List.mem_cons, ih]

/-- Helper: the modelled Python `float` only produces non-negative values
on the parser's digit strings. -/
theorem pyFloat_nonneg {cs : List Char} {v : ℚ}
    (h : OCR.DocumentParser.pyFloat cs = some v) : 0 ≤ v := by
  have key : ∀ (n d : Nat), 0 ≤ mkRat (Int.ofNat n) d := by
    intro n d
    rw [Rat.mkRat_eq_div]
    apply div_nonneg
    · rw [Int.ofNat_eq_natCast]
      exact_mod_cast Nat.zero_le n
    · exact_mod_cast Nat.zero_le d
  unfold OCR.DocumentParser.pyFloat at h
  split at h
  · split at h
    · exact absurd h (by simp)
    · simp only [Option.some.injEq] at h
      subst h
      exact key _ _
  · split at h
    · simp only [Option.some.injEq] at h
      subst h
      exact key _ _
    · exact absurd h (by simp)
  · exact absurd h (by simp)

/-- Helper: every amount `_extract_all_amounts` returns is strictly
positive (the source filters `amount > 0`). -/
theorem extract_all_amounts_pos (t : String) :
    ∀ v ∈ OCR.DocumentParser.extract_all_amounts t, 0 < v := by
  intro v hv
  unfold OCR.DocumentParser.extract_all_amounts at hv
  rw [mem_sortDesc, List.mem_dedup, List.mem_filterMap] at hv
  obtain ⟨g, -, hg⟩ := hv
  rcases Option.bind_eq_some.mp hg with ⟨w, -, hw⟩
  by_cases hpos : (0 : ℚ) < w
  · rw [if_pos hpos, Option.some.injEq] at hw
    exact hw ▸ hpos
  · rw [if_neg hpos] at hw
    exact absurd hw (by simp)

/-- Helper: the labeled-pattern loop only returns values parsed by the
modelled `float`, hence non-negative. -/
theorem firstLabeledAmount_nonneg (pats : List (List String)) (tl : List Char) (v : ℚ)
    (h : OCR.DocumentParser.firstLabeledAmount pats tl = some v) : 0 ≤ v := by
  induction pats with
  | nil => exact absurd h (by simp [OCR.DocumentParser.firstLabeledAmount])
  | cons ws rest ih =>
      unfold OCR.DocumentParser.firstLabeledAmount at h
      split at h
      · split at h
        · simp only [Option.some.injEq] at h
          subst h
          exact pyFloat_nonneg (by assumption)
        · exact ih h
      · exact ih h

/-- C4: on "Total: $1,234.56 Tax: $61.73" the extractor finds
total_amount = 1234.56, tax_amount = 61.73 and amount = 1234.56, the
maximum of the two distinct monetary matches 1234.56 and 61.73. -/
theorem C4_amount_example :
    OCR.DocumentParser.extract_total_amount "Total: $1,234.56 Tax: $61.73" = some (1234.56 : ℚ) ∧
    OCR.DocumentParser.extract_tax_amount "Total: $1,234.56 Tax: $61.73" = some (61.73 : ℚ) ∧
    OCR.DocumentParser.extract_amount "Total: $1,234.56 Tax: $61.73" = some (1234.56 : ℚ) ∧
    OCR.DocumentParser.extract_all_amounts "Total: $1,234.56 Tax: $61.73" =
      [(1234.56 : ℚ), (61.73 : ℚ)] := by
  have e1 : (1234.56 : ℚ) = mkRat 123456 100 := by
    rw [Rat.mkRat_eq_div]
    norm_num
  have e2 : (61.73 : ℚ) = mkRat 6173 100 := by
    rw [Rat.mkRat_eq_div]
    norm_num
  refine ⟨?_, ?_, ?_, ?_⟩
  · rw [e1]; decide
  · rw [e2]; decide
  · rw [e1]; decide
  · rw [e1, e2]; decide

/-- C5: `extract_total_amount` first tries the labeled total patterns in
order (a produced value is returned as-is), and when none yields a value
it equals `extract_amount`; `extract_amount` is the maximum of the
distinct monetary values found, absent when there are none. -/
theorem C5_total_fallback (t : String) :
    (∀ v, OCR.DocumentParser.firstLabeledAmount OCR.DocumentParser.total_patterns
        (PyStr.lower t.data) = some v →
      OCR.DocumentParser.extract_total_amount t = some v) ∧
    (OCR.DocumentParser.firstLabeledAmount OCR.DocumentParser.total_patterns
        (PyStr.lower t.data) = none →
      OCR.DocumentParser.extract_total_amount t = OCR.DocumentParser.extract_amount t) ∧
    (∀ v, OCR.DocumentParser.extract_amount t = some v →
      v ∈ OCR.DocumentParser.extract_all_amounts t ∧
      ∀ x ∈ OCR.DocumentParser.extract_all_amounts t, x ≤ v) ∧
    (OCR.DocumentParser.extract_all_amounts t = [] →
      OCR.DocumentParser.extract_amount t = none) := by
  refine ⟨fun v hv => ?_, fun hn => ?_, fun v hv => ?_, fun he => ?_⟩
  · unfold OCR.DocumentParser.extract_total_amount
    rw [hv]
  · unfold OCR.DocumentParser.extract_total_amount
    rw [hn]
  · unfold OCR.DocumentParser.extract_amount at hv
    split at hv
    · exact absurd hv (by simp)
    · next a rest heq =>
        simp only [Option.some.injEq] at hv
        subst hv
        rw [heq]
        exact ⟨foldl_max_mem a rest, foldl_max_le rest a⟩
  · unfold OCR.DocumentParser.extract_amount
    rw [he]

/-- C5, witness: with no label present the total falls back to the
amount; a labeled total is returned directly; the amount is a maximal
member; no monetary match means no amount. -/
theorem C5_total_fallback_witness :
    OCR.DocumentParser.extract_total_amount "abc 5.00" =
      OCR.DocumentParser.extract_amount "abc 5.00" ∧
    OCR.DocumentParser.extract_total_amount "total: 8.00" = some 8 ∧
    (5 : ℚ) ∈ OCR.DocumentParser.extract_all_amounts "abc 5.00" ∧
    OCR.DocumentParser.extract_amount "xyz" = none :=
  ⟨(C5_total_fallback "abc 5.00").2.1 (by decide),
   (C5_total_fallback "total: 8.00").1 8 (by decide),
   ((C5_total_fallback "abc 5.00").2.2.1 5 (by decide)).1,
   (C5_total_fallback "xyz").2.2.2 (by decide)⟩

/-- C9: whenever the amount, total-amount or tax-amount field is present,
its value is non-negative. -/
theorem C9_monetary_nonneg (t : String) :
    (∀ v, OCR.DocumentParser.extract_amount t = some v → 0 ≤ v) ∧
    (∀ v, OCR.DocumentParser.extract_total_amount t = some v → 0 ≤ v) ∧
    (∀ v, OCR.DocumentParser.extract_tax_amount t = some v → 0 ≤ v) := by
  have hamount : ∀ v, OCR.DocumentParser.extract_amount t = some v → 0 ≤ v := by
    intro v hv
    unfold OCR.DocumentParser.extract_amount at hv
    split at hv
    · exact absurd hv (by simp)
    · next a rest heq =>
        simp only [Option.some.injEq] at hv
        subst hv
        have hmem := foldl_max_mem a rest
        rw [← heq] at hmem
        exact (extract_all_amounts_pos t _ hmem).le
  refine ⟨hamount, fun v hv => ?_, fun v hv => ?_⟩
  · unfold OCR.DocumentParser.extract_total_amount at hv
    split at hv
    · next w hw =>
        simp only [Option.some.injEq] at hv
        subst hv
        exact firstLabeledAmount_nonneg _ _ _ hw
    · exact hamount v hv
  · exact firstLabeledAmount_nonneg _ _ _ hv

/-- C9, witness: concrete present fields are non-negative. -/
theorem C9_monetary_nonneg_witness :
    (0 : ℚ) ≤ 5 ∧ (0 : ℚ) ≤ 8 ∧ (0 : ℚ) ≤ 3 :=
  ⟨(C9_monetary_nonneg "a 5.00").1 5 (by decide),
   (C9_monetary_nonneg "total: 8").2.1 8 (by decide),
   (C9_monetary_nonneg "tax: 3").2.2 3 (by decide)⟩

/-- Helper: trying candidates of a concatenation is trying the first
block, then the second. -/
theorem tryCandidates_append (l1 l2 : List (List Char)) :
    OCR.DocumentParser.tryCandidates (l1 ++ l2) =
      match OCR.DocumentParser.tryCandidates l1 with
      | some s => some s
      | none => OCR.DocumentParser.tryCandidates l2 := by
  induction l1 with
  | nil => rfl
  | cons g gs ih =>
      show OCR.DocumentParser.tryCandidates (g :: (gs ++ l2)) = _
      cases hp : OCR.DocumentParser.parseDateCandidate (OCR.DocumentParser.slashToDash g) with
      | some ymd =>
          obtain ⟨y, m, d⟩ := ymd
          simp only [OCR.DocumentParser.tryCandidates, hp]
      | none =>
          simp only [OCR.DocumentParser.tryCandidates, hp]
          exact ih

/-- C6: date extraction tries the labeled, bare, and ISO-like patterns in
that fixed order, returning the first candidate (in pattern order) that
the lenient date parser accepts, normalized to `YYYY-MM-DD`; in
particular "Date: 03/14/2024" yields "2024-03-14" and text with no
date-shaped substring yields none. -/
theorem C6_date_extraction :
    (∀ t : String,
      OCR.DocumentParser.extract_date t =
        OCR.DocumentParser.tryCandidates
          (OCR.DocumentParser.findLabeledDates t.data.length t.data ++
           OCR.DocumentParser.findBareDates t.data.length t.data ++
           OCR.DocumentParser.findIsoDates t.data.length t.data)) ∧
    OCR.DocumentParser.extract_date "Date: 03/14/2024" = some "2024-03-14" ∧
    OCR.DocumentParser.extract_date "hello world" = none := by
  refine ⟨fun t => ?_, by decide, by decide⟩
  rw [List.append_assoc, tryCandidates_append, tryCandidates_append]
  unfold OCR.DocumentParser.extract_date
  cases h1 : OCR.DocumentParser.tryCandidates
      (OCR.DocumentParser.findLabeledDates t.data.length t.data) with
  | some s => rfl
  | none =>
      cases h2 : OCR.DocumentParser.tryCandidates
          (OCR.DocumentParser.findBareDates t.data.length t.data) with
      | some s => rfl
      | none => rfl

/-- Helper: the per-line acceptance of the source's vendor loop agrees
with the amended acceptance predicate on the stripped line. -/
theorem isVendorLine_eq (line : List Char) :
    OCR.DocumentParser.isVendorLine line =
      (if OCR.DocumentParser.acceptedLineAmended (PyStr.pyStrip line) = true
       then some (PyStr.pyStrip line) else none) := by
  unfold OCR.DocumentParser.isVendorLine OCR.DocumentParser.acceptedLineAmended
  by_cases hA : 3 < (PyStr.pyStrip line).length ∧ (PyStr.pyStrip line).length < 100
  · have hA2 : decide (4 ≤ (PyStr.pyStrip line).length ∧ (PyStr.pyStrip line).length ≤ 99)
        = true := by
      simp only [decide_eq_true_eq]
      omega
    by_cases hB : ((PyStr.pyStrip line).all OCR.DocumentParser.numSymChar) = true
    · simp [hA, hA2, hB]
    · have hB2 : ((PyStr.pyStrip line).all OCR.DocumentParser.numSymChar) = false := by
        simpa using hB
      by_cases hC : (OCR.DocumentParser.COMPANY_INDICATORS.any
          (fun kw => PyStr.containsSub kw.data (PyStr.lower (PyStr.pyStrip line)))) = true
      · simp [hA, hA2, hB2, hC]
      · have hC2 : (OCR.DocumentParser.COMPANY_INDICATORS.any
            (fun kw => PyStr.containsSub kw.data (PyStr.lower (PyStr.pyStrip line)))) = false := by
          simpa using hC
        by_cases hD : PyStr.pyIsUpper (PyStr.pyStrip line) = true
        · by_cases hE : 5 ≤ (PyStr.pyStrip line).length ∧ (PyStr.pyStrip line).length ≤ 50
          · simp [hA, hA2, hB2, hC2, hD, hE]
          · simp [hA, hA2, hB2, hC2, hD, hE, decide_eq_false hE]
        · have hD2 : PyStr.pyIsUpper (PyStr.pyStrip line) = false := by simpa using hD
          simp [hA, hA2, hB2, hC2, hD2]
  · have hA2 : decide (4 ≤ (PyStr.pyStrip line).length ∧ (PyStr.pyStrip line).length ≤ 99)
        = false := by
      simp only [decide_eq_false_iff_not]
      omega
    simp [hA, hA2]

/-- Helper: the vendor loop over a line list equals a first-accepted
search over the stripped lines. -/
theorem firstSome_vendor_eq (ls : List (List Char)) :
    PyStr.firstSome OCR.DocumentParser.isVendorLine ls =
      (ls.map PyStr.pyStrip).find? OCR.DocumentParser.acceptedLineAmended := by
  induction ls with
  | nil => rfl
  | cons l rest ih =>
      simp only [PyStr.firstSome, List.map_cons]
      rw [isVendorLine_eq]
      by_cases h : OCR.DocumentParser.acceptedLineAmended (PyStr.pyStrip l) = true
      · simp [List.find?, h]
      · have h2 : OCR.DocumentParser.acceptedLineAmended (PyStr.pyStrip l) = false := by
          simpa using h
        simp [List.find?, h2, ih]

/-- C7, counterexample: the one-line text "Inc" is non-empty, well under
100 characters, not composed of digits/punctuation/whitespace, and
contains the company-suffix keyword "inc", so the claim accepts it as the
vendor name — but the source skips every line of length ≤ 3 (its
condition is `len(line) > 3`) and extracts no vendor at all. -/
theorem C7_counterexample :
    OCR.DocumentParser.extract_vendor_name "Inc" = none ∧
    PyStr.containsSub "inc".data (PyStr.lower (PyStr.pyStrip "Inc".data)) = true ∧
    (PyStr.pyStrip "Inc".data).length = 3 ∧
    (PyStr.pyStrip "Inc".data).all OCR.DocumentParser.numSymChar = false := by
  refine ⟨by decide, by decide, by decide, by decide⟩

/-- C7 (amended): vendor extraction scans the trimmed first ten lines
top-to-bottom and returns the first line whose length lies between 4 and
99 (so lines of up to three characters — in particular empty ones — are
skipped, as are over-long ones), that is not made up entirely of digits,
whitespace and the symbols `$ . , :`, and that contains a company-suffix
keyword case-insensitively or is fully upper-case with length 5 to 50;
absent when no such line exists. -/
theorem C7_vendor_amended (t : String) :
    OCR.DocumentParser.extract_vendor_name t = OCR.DocumentParser.vendorAmendedSpec t := by
  unfold OCR.DocumentParser.extract_vendor_name OCR.DocumentParser.vendorAmendedSpec
  rw [firstSome_vendor_eq]
